import Mathlib

/-!
Verification development for the ElectoralRedistricting pipeline
(`src/pipeline`).  The definitions below are shallow embeddings of the
Python source: filenames are lists of characters, Python `re` searches are
embedded as explicit left-to-right scanners with the same alternation,
greediness and case-insensitivity behaviour as the concrete patterns used
in `pipeline/utils/helpers.py`, fallible Python code (raising exceptions)
is embedded as `Option`/`Except` values, and floats are idealised as
rationals.
-/

namespace Redistricting

/-! ## Characters and digit strings -/

/-- Lower-case a character, as Python's `re.IGNORECASE` does for ASCII. -/
def lowc (c : Char) : Char :=
  if 65 ≤ c.toNat ∧ c.toNat ≤ 90 then Char.ofNat (c.toNat + 32) else c

/-- The characters accepted by the `[_-]` character classes. -/
def isSepChar (c : Char) : Bool :=
  c = '_' || c = '-'

/-- ASCII decimal digit, the characters `\d` matches in the paths this
pipeline writes. -/
def isDig (c : Char) : Bool :=
  48 ≤ c.toNat && c.toNat ≤ 57

/-- Numeric value of a digit-run, as `int(...)` applied to matched digits. -/
def digitsVal (ds : List Char) : Nat :=
  ds.foldl (fun a c => 10 * a + (c.toNat - 48)) 0

/-- The decimal digit character for `d < 10` (and `'9'` above). -/
def digitChar (d : Nat) : Char :=
  match d with
  | 0 => '0' | 1 => '1' | 2 => '2' | 3 => '3' | 4 => '4'
  | 5 => '5' | 6 => '6' | 7 => '7' | 8 => '8' | _ => '9'

/-- Decimal digit string, fuelled so that it is structurally recursive
(and hence kernel-computable); `natDigits` instantiates the fuel. -/
def natDigitsAux : Nat → Nat → List Char
  | 0, _ => []
  | fuel + 1, n =>
    if n < 10 then [digitChar n]
    else natDigitsAux fuel (n / 10) ++ [digitChar (n % 10)]

/-- Decimal digit string of a natural number, as Python's `str`/`format`. -/
def natDigits (n : Nat) : List Char :=
  natDigitsAux (n + 1) n

/-- Zero-pad to width two: Python's `f"{n:02d}"`. -/
def pad2 (n : Nat) : List Char :=
  (if n < 10 then ['0'] else []) ++ natDigits n

/-- Zero-pad to width three: Python's `f"{n:03d}"`. -/
def pad3 (n : Nat) : List Char :=
  (if n < 10 then ['0', '0'] else if n < 100 then ['0'] else []) ++ natDigits n

lemma digitChar_isDig (d : Nat) : isDig (digitChar d) = true := by
  rcases d with _ | _ | _ | _ | _ | _ | _ | _ | _ | _ <;> rfl

lemma digitChar_val {d : Nat} (h : d < 10) : (digitChar d).toNat - 48 = d := by
  interval_cases d <;> rfl

lemma natDigitsAux_fuel :
    ∀ (f1 f2 n : Nat), n < f1 → n < f2 →
      natDigitsAux f1 n = natDigitsAux f2 n := by
  intro f1
  induction f1 with
  | zero => intro f2 n h1 _; omega
  | succ f ih =>
    intro f2 n h1 h2
    cases f2 with
    | zero => omega
    | succ f2' =>
      show (if n < 10 then [digitChar n]
            else natDigitsAux f (n / 10) ++ [digitChar (n % 10)])
          = (if n < 10 then [digitChar n]
            else natDigitsAux f2' (n / 10) ++ [digitChar (n % 10)])
      split
      · rfl
      · next hn =>
        have hdiv : n / 10 < n := Nat.div_lt_self (by omega) (by omega)
        rw [ih f2' (n / 10) (by omega) (by omega)]

lemma natDigits_eq (n : Nat) :
    natDigits n = if n < 10 then [digitChar n]
      else natDigits (n / 10) ++ [digitChar (n % 10)] := by
  show (if n < 10 then [digitChar n]
        else natDigitsAux n (n / 10) ++ [digitChar (n % 10)]) = _
  split
  · rfl
  · next hn =>
    have hdiv : n / 10 < n := Nat.div_lt_self (by omega) (by omega)
    rw [natDigitsAux_fuel n (n / 10 + 1) (n / 10) (by omega) (by omega)]
    rfl

lemma natDigits_ne_nil (n : Nat) : natDigits n ≠ [] := by
  rw [natDigits_eq]
  split <;> simp

lemma natDigits_isDig (n : Nat) : ∀ c ∈ natDigits n, isDig c = true := by
  induction n using Nat.strong_induction_on with
  | _ n ih =>
    rw [natDigits_eq]
    split
    · intro c hc
      simp only [List.mem_singleton] at hc
      subst hc; exact digitChar_isDig _
    · intro c hc
      rcases List.mem_append.1 hc with h | h
      · exact ih (n / 10) (Nat.div_lt_self (by omega) (by omega)) c h
      · simp only [List.mem_singleton] at h
        subst h; exact digitChar_isDig _

lemma digitsVal_append_singleton (xs : List Char) (c : Char) :
    digitsVal (xs ++ [c]) = 10 * digitsVal xs + (c.toNat - 48) := by
  simp [digitsVal, List.foldl_append]

lemma digitsVal_natDigits (n : Nat) : digitsVal (natDigits n) = n := by
  induction n using Nat.strong_induction_on with
  | _ n ih =>
    rw [natDigits_eq]
    split
    · next h =>
      simp [digitsVal, digitChar_val h]
    · next h =>
      rw [digitsVal_append_singleton,
        ih (n / 10) (Nat.div_lt_self (by omega) (by omega)),
        digitChar_val (Nat.mod_lt _ (by omega))]
      omega

lemma digitsVal_cons_zero (xs : List Char) :
    digitsVal ('0' :: xs) = digitsVal xs := by
  simp [digitsVal]

lemma pad2_isDig (n : Nat) : ∀ c ∈ pad2 n, isDig c = true := by
  intro c hc
  rcases List.mem_append.1 hc with h | h
  · split at h
    · simp only [List.mem_singleton] at h; subst h; decide
    · simp at h
  · exact natDigits_isDig n c h

lemma pad3_isDig (n : Nat) : ∀ c ∈ pad3 n, isDig c = true := by
  intro c hc
  rcases List.mem_append.1 hc with h | h
  · split at h
    · simp only [List.mem_cons, List.mem_singleton, List.not_mem_nil, or_false] at h
      rcases h with h | h <;> (subst h; decide)
    · split at h
      · simp only [List.mem_singleton] at h; subst h; decide
      · simp at h
  · exact natDigits_isDig n c h

lemma digitsVal_pad2 (n : Nat) : digitsVal (pad2 n) = n := by
  unfold pad2
  split
  · rw [List.singleton_append, digitsVal_cons_zero, digitsVal_natDigits]
  · rw [List.nil_append, digitsVal_natDigits]

lemma digitsVal_pad3 (n : Nat) : digitsVal (pad3 n) = n := by
  unfold pad3
  split
  · show digitsVal ('0' :: '0' :: natDigits n) = n
    rw [digitsVal_cons_zero, digitsVal_cons_zero, digitsVal_natDigits]
  · split
    · rw [List.singleton_append, digitsVal_cons_zero, digitsVal_natDigits]
    · rw [List.nil_append, digitsVal_natDigits]

lemma isDig_toNat {c : Char} (h : isDig c = true) :
    48 ≤ c.toNat ∧ c.toNat ≤ 57 := by
  simpa only [isDig, Bool.and_eq_true, decide_eq_true_eq] using h

lemma lowc_of_isDig {c : Char} (h : isDig c = true) : lowc c = c := by
  have := isDig_toNat h
  unfold lowc
  rw [if_neg]
  omega

lemma lowc_ne_of_isDig {c : Char} (h : isDig c = true) {d : Char}
    (hd : 97 ≤ d.toNat) : lowc c ≠ d := by
  rw [lowc_of_isDig h]
  intro he
  have := isDig_toNat h
  subst he
  omega

/-! ## The identity decoder `parse_plan_district_rep_from_path`

`pipeline/utils/helpers.py` decodes `(plan, district, rep)` from a path with
three case-insensitive regular expressions:

* plan:     first match of  `(?:district[_-]?plan[_-]?|plan[_-]?)(\d+)`
* district: all matches of  `district[_-]?(\d+)`, last one wins
* rep:      first match of  `(?:^|[_-])v(\d+)(?:\D|$)`

They are embedded as explicit scanners with the same leftmost-match,
ordered-alternation and greedy semantics.  In each pattern the final `\d+`
is greedy and nothing needs to match after it other than the rep pattern's
`(?:\D|$)` — which a maximal digit run always satisfies — so no
backtracking into the digit run can occur and the scanners below are
exact. -/

/-- Case-insensitive literal match; on success returns the rest of the
input. -/
def matchLit : List Char → List Char → Option (List Char)
  | [], s => some s
  | _ :: _, [] => none
  | p :: ps, c :: cs => if lowc c = p then matchLit ps cs else none

/-- Greedy `\d+` (at least one digit); returns its value and the rest. -/
def digitsOf (s : List Char) : Option (Nat × List Char) :=
  if (s.takeWhile isDig).isEmpty then none
  else some (digitsVal (s.takeWhile isDig), s.dropWhile isDig)

/-- `[_-]?\d+`: a greedy optional separator followed by a greedy digit run.
(If the separator is consumed but no digit follows, backtracking to the
empty separator also fails, since the separator itself is not a digit.) -/
def sepDigits (s : List Char) : Option (Nat × List Char) :=
  match s with
  | c :: cs => if isSepChar c then digitsOf cs else digitsOf s
  | [] => none

/-- `[_-]?<lit>` for a literal starting with a letter (so backtracking out
of a consumed separator cannot succeed). -/
def sepLit (lit : List Char) (s : List Char) : Option (List Char) :=
  match s with
  | c :: cs => if isSepChar c then matchLit lit cs else matchLit lit s
  | [] => none

/-- First alternative of the plan pattern: `district[_-]?plan[_-]?(\d+)`. -/
def planBranchLong (s : List Char) : Option Nat :=
  (matchLit ("district".data) s).bind fun t =>
    (sepLit ("plan".data) t).bind fun u => (sepDigits u).map (·.1)

/-- Second alternative of the plan pattern: `plan[_-]?(\d+)`. -/
def planBranchShort (s : List Char) : Option Nat :=
  (matchLit ("plan".data) s).bind fun u => (sepDigits u).map (·.1)

/-- Try the plan pattern at one position (ordered alternation). -/
def matchPlanAt (s : List Char) : Option Nat :=
  match planBranchLong s with
  | some n => some n
  | none => planBranchShort s

/-- `re.search` for the plan pattern: leftmost matching position wins. -/
def findPlan : List Char → Option Nat
  | [] => none
  | c :: cs =>
    match matchPlanAt (c :: cs) with
    | some n => some n
    | none => findPlan cs

/-- Try `district[_-]?(\d+)` at one position; returns the captured value
and the input remaining after the whole match (for `findall` resumption). -/
def matchDistrictAt (s : List Char) : Option (Nat × List Char) :=
  (matchLit ("district".data) s).bind sepDigits

lemma matchLit_length {l s t : List Char} (h : matchLit l s = some t) :
    s.length = l.length + t.length := by
  induction l generalizing s with
  | nil => cases s <;> simp [matchLit] at h <;> simp [h]
  | cons p ps ih =>
    cases s with
    | nil => simp [matchLit] at h
    | cons c cs =>
      simp only [matchLit] at h
      split at h
      · have := ih h
        simp [this, List.length_cons]
        omega
      · exact absurd h (by simp)

lemma digitsOf_length {s : List Char} {n : Nat} {rest : List Char}
    (h : digitsOf s = some (n, rest)) : rest.length < s.length := by
  unfold digitsOf at h
  split at h
  · exact absurd h (by simp)
  · next hne =>
    have hcomb : s.takeWhile isDig ++ s.dropWhile isDig = s :=
      List.takeWhile_append_dropWhile isDig s
    have hlen : (s.takeWhile isDig).length + (s.dropWhile isDig).length
        = s.length := by
      rw [← List.length_append, hcomb]
    simp only [Option.some.injEq, Prod.mk.injEq] at h
    have hrest : rest = s.dropWhile isDig := h.2.symm
    have : (s.takeWhile isDig).length ≠ 0 := by
      simpa [List.isEmpty_iff, List.length_eq_zero] using hne
    rw [hrest]
    omega

lemma sepDigits_length {s : List Char} {n : Nat} {rest : List Char}
    (h : sepDigits s = some (n, rest)) : rest.length < s.length := by
  unfold sepDigits at h
  cases s with
  | nil => simp at h
  | cons c cs =>
    simp only at h
    split at h
    · have := digitsOf_length h
      simp only [List.length_cons]
      omega
    · exact digitsOf_length h

lemma matchDistrictAt_length {s : List Char} {n : Nat} {rest : List Char}
    (h : matchDistrictAt s = some (n, rest)) : rest.length < s.length := by
  unfold matchDistrictAt at h
  cases hm : matchLit ("district".data) s with
  | none => rw [hm] at h; exact absurd h (by simp)
  | some t =>
    rw [hm] at h
    have h' : sepDigits t = some (n, rest) := h
    have h1 := matchLit_length hm
    have h2 := sepDigits_length h'
    omega

/-- `re.findall` for the district pattern: scan left to right, resuming
after each whole match.  Fuelled for structural recursion; each step
consumes at least one character, so `s.length` fuel is always enough. -/
def findDistrictsAux : Nat → List Char → List Nat
  | 0, _ => []
  | _ + 1, [] => []
  | fuel + 1, c :: cs =>
    match matchDistrictAt (c :: cs) with
    | some (n, rest) => n :: findDistrictsAux fuel rest
    | none => findDistrictsAux fuel cs

def findDistricts (s : List Char) : List Nat :=
  findDistrictsAux s.length s

lemma findDistrictsAux_fuel :
    ∀ (f1 f2 : Nat) (s : List Char), s.length ≤ f1 → s.length ≤ f2 →
      findDistrictsAux f1 s = findDistrictsAux f2 s := by
  intro f1
  induction f1 with
  | zero =>
    intro f2 s h1 _
    have : s = [] := List.length_eq_zero.1 (by omega)
    subst this
    cases f2 <;> rfl
  | succ f ih =>
    intro f2 s h1 h2
    cases s with
    | nil => cases f2 <;> rfl
    | cons c cs =>
      cases f2 with
      | zero => simp at h2
      | succ f2' =>
        show (match matchDistrictAt (c :: cs) with
              | some (n, rest) => n :: findDistrictsAux f rest
              | none => findDistrictsAux f cs)
            = (match matchDistrictAt (c :: cs) with
              | some (n, rest) => n :: findDistrictsAux f2' rest
              | none => findDistrictsAux f2' cs)
        cases hm : matchDistrictAt (c :: cs) with
        | none =>
          simp only [List.length_cons] at h1 h2
          exact ih f2' cs (by omega) (by omega)
        | some v =>
          obtain ⟨n, rest⟩ := v
          have := matchDistrictAt_length hm
          simp only [List.length_cons] at h1 h2 this
          exact congrArg (List.cons n) (ih f2' rest (by omega) (by omega))

/-- `v(\d+)` (the trailing `(?:\D|$)` is automatic after a greedy run). -/
def repTail (s : List Char) : Option Nat :=
  match s with
  | c :: cs => if lowc c = 'v' then (digitsOf cs).map (·.1) else none
  | [] => none

/-- The rep pattern anchored at the start of the string (`^` branch). -/
def repAnchor (s : List Char) : Option Nat :=
  repTail s

/-- The rep pattern at an inner position (`[_-]` branch). -/
def repSep (s : List Char) : Option Nat :=
  match s with
  | c :: cs => if isSepChar c then repTail cs else none
  | [] => none

/-- Scan all positions for the `[_-]v(\d+)` branch. -/
def repScan : List Char → Option Nat
  | [] => none
  | c :: cs =>
    match repSep (c :: cs) with
    | some n => some n
    | none => repScan cs

/-- `re.search` for `(?:^|[_-])v(\d+)(?:\D|$)`: the anchored branch can
only fire at position 0; elsewhere a separator is required. -/
def findRep (s : List Char) : Option Nat :=
  match repAnchor s with
  | some n => some n
  | none => repScan s

/-- `helpers.parse_plan_district_rep_from_path`: decode
`(plan, district, rep)` from a path, each component `none` when its
pattern does not occur. -/
def parse_plan_district_rep_from_path (s : List Char) :
    Option Nat × Option Nat × Option Nat :=
  (findPlan s, (findDistricts s).getLast?, findRep s)

/-! ## Paths written by the settings and profile generators

`settings_generator.generate_settings` writes each settings artifact at

  outputs/settings/<run>_settings/<dnum>/
    <run>_<dnum>_sample_settings_district_plan_<plan:03d>_district_<district:02d>.json

and `profile_generator.process_settings_file` writes each ballot profile at
the settings stem with `sample_settings` replaced by `profile`, suffixed
`_v<rep>`, under outputs/profiles/<run>/<mode>/<dnum>/ (the source builds
this with `Path.stem` and `str.replace`; for run names that do not
themselves contain the `sample_settings` token this is the literal below).
`root` is the absolute directory prefix the generator resolves (empty for
the paths recorded relative to the project root). -/

def settings_path_front (root run : List Char) (dnum : Nat) : List Char :=
  root ++ "outputs/settings/".data ++ run ++ "_settings/".data ++ natDigits dnum
    ++ "/".data ++ run ++ "_".data ++ natDigits dnum ++ "_sample_settings_".data

def settings_path (root run : List Char) (dnum plan district : Nat) : List Char :=
  settings_path_front root run dnum ++
    ("district_plan_".data ++ pad3 plan ++
      ("_district_".data ++ (pad2 district ++ ".json".data)))

def profile_path_front (root run mode : List Char) (dnum : Nat) : List Char :=
  root ++ "outputs/profiles/".data ++ run ++ "/".data ++ mode ++ "/".data
    ++ natDigits dnum ++ "/".data ++ run ++ "_".data ++ natDigits dnum
    ++ "_profile_".data

def profile_path (root run mode : List Char) (dnum plan district rep : Nat) :
    List Char :=
  profile_path_front root run mode dnum ++
    ("district_plan_".data ++ pad3 plan ++
      ("_district_".data ++ (pad2 district ++
        ("_v".data ++ natDigits rep ++ ".csv".data))))

/-- The part of both artifact names that carries the identity:
`district_plan_<plan:03d>_district_<district:02d><t>`, in fully
right-nested form for the scanning proofs. -/
def plan_district_block (p d : Nat) (t : List Char) : List Char :=
  "district".data ++ '_' :: ("plan".data ++ '_' :: (pad3 p
    ++ '_' :: ("district".data ++ '_' :: (pad2 d ++ t))))

lemma settings_path_eq (root run : List Char) (dnum p d : Nat) :
    settings_path root run dnum p d
      = settings_path_front root run dnum
          ++ plan_district_block p d (".json".data) := by
  unfold settings_path plan_district_block
  have h1 : ("district_plan_".data : List Char)
      = "district".data ++ '_' :: "plan".data ++ ['_'] := by decide
  have h2 : ("_district_".data : List Char)
      = '_' :: "district".data ++ ['_'] := by decide
  rw [h1, h2]
  simp [List.append_assoc]

lemma profile_path_eq (root run mode : List Char) (dnum p d rep : Nat) :
    profile_path root run mode dnum p d rep
      = profile_path_front root run mode dnum
          ++ plan_district_block p d
              ('_' :: 'v' :: (natDigits rep ++ ".csv".data)) := by
  unfold profile_path plan_district_block
  have h1 : ("district_plan_".data : List Char)
      = "district".data ++ '_' :: "plan".data ++ ['_'] := by decide
  have h2 : ("_district_".data : List Char)
      = '_' :: "district".data ++ ['_'] := by decide
  have h3 : ("_v".data : List Char) = '_' :: ['v'] := by decide
  rw [h1, h2, h3]
  simp [List.append_assoc]

/-! ## Small-step equations for the scanners -/

lemma matchLit_exact {l : List Char} (hl : ∀ c ∈ l, lowc c = c)
    (t : List Char) : matchLit l (l ++ t) = some t := by
  induction l with
  | nil => rfl
  | cons p ps ih =>
    show matchLit (p :: ps) (p :: (ps ++ t)) = some t
    unfold matchLit
    rw [if_pos (hl p (by simp))]
    exact ih (fun c hc => hl c (by simp [hc]))

lemma matchLit_cons_ne {p : Char} {ps : List Char} {c : Char} {cs : List Char}
    (h : lowc c ≠ p) : matchLit (p :: ps) (c :: cs) = none := by
  unfold matchLit
  rw [if_neg h]

lemma takeWhile_append_all {p : Char → Bool} {a : List Char}
    (ha : ∀ c ∈ a, p c = true) (b : List Char) :
    (a ++ b).takeWhile p = a ++ b.takeWhile p := by
  induction a with
  | nil => rfl
  | cons c a' ih =>
    simp only [List.cons_append, List.takeWhile_cons, ha c (by simp),
      ih (fun x hx => ha x (by simp [hx])), if_true]

lemma dropWhile_append_all {p : Char → Bool} {a : List Char}
    (ha : ∀ c ∈ a, p c = true) (b : List Char) :
    (a ++ b).dropWhile p = b.dropWhile p := by
  induction a with
  | nil => rfl
  | cons c a' ih =>
    simp only [List.cons_append, List.dropWhile_cons, ha c (by simp),
      ih (fun x hx => ha x (by simp [hx]))]
    simp

lemma takeWhile_eq_nil_of_head {p : Char → Bool} {b : List Char}
    (hb : ∀ c, b.head? = some c → p c = false) : b.takeWhile p = [] := by
  cases b with
  | nil => rfl
  | cons c cs =>
    simp only [List.takeWhile_cons, hb c rfl]
    simp

lemma dropWhile_eq_self_of_head {p : Char → Bool} {b : List Char}
    (hb : ∀ c, b.head? = some c → p c = false) : b.dropWhile p = b := by
  cases b with
  | nil => rfl
  | cons c cs =>
    simp only [List.dropWhile_cons, hb c rfl]
    simp

lemma digitsOf_exact {ds rest : List Char} (hne : ds ≠ [])
    (hall : ∀ c ∈ ds, isDig c = true)
    (hrest : ∀ c, rest.head? = some c → isDig c = false) :
    digitsOf (ds ++ rest) = some (digitsVal ds, rest) := by
  unfold digitsOf
  rw [takeWhile_append_all hall, takeWhile_eq_nil_of_head hrest,
    dropWhile_append_all hall, dropWhile_eq_self_of_head hrest,
    List.append_nil]
  rw [if_neg (by simpa [List.isEmpty_iff] using hne)]

lemma digitsOf_none_of_head {s : List Char}
    (h : ∀ c, s.head? = some c → isDig c = false) : digitsOf s = none := by
  unfold digitsOf
  rw [takeWhile_eq_nil_of_head h]
  rfl

lemma sepDigits_cons_sep {c : Char} (h : isSepChar c = true) (s : List Char) :
    sepDigits (c :: s) = digitsOf s := by
  show (if isSepChar c = true then digitsOf s else digitsOf (c :: s))
      = digitsOf s
  rw [if_pos h]

lemma sepLit_cons_sep {c : Char} (h : isSepChar c = true) (l s : List Char) :
    sepLit l (c :: s) = matchLit l s := by
  show (if isSepChar c = true then matchLit l s else matchLit l (c :: s))
      = matchLit l s
  rw [if_pos h]

lemma pad2_ne_nil (n : Nat) : pad2 n ≠ [] := by
  unfold pad2
  intro h
  exact natDigits_ne_nil n (List.append_eq_nil.1 h).2

lemma pad3_ne_nil (n : Nat) : pad3 n ≠ [] := by
  unfold pad3
  intro h
  exact natDigits_ne_nil n (List.append_eq_nil.1 h).2

lemma head_isDig_false {c0 : Char} (h0 : isDig c0 = false) (x : List Char) :
    ∀ c, ((c0 :: x) : List Char).head? = some c → isDig c = false := by
  intro c hc
  rw [List.head?_cons, Option.some.injEq] at hc
  rw [← hc]
  exact h0

lemma head_lowc_ne {c0 : Char} {d : Char} (h0 : lowc c0 ≠ d) (x : List Char) :
    ∀ c, ((c0 :: x) : List Char).head? = some c → lowc c ≠ d := by
  intro c hc
  rw [List.head?_cons, Option.some.injEq] at hc
  rw [← hc]
  exact h0

/-! ### Case-analysis equations for the top-level scanners -/

lemma matchPlanAt_of_long {s : List Char} {n : Nat}
    (h : planBranchLong s = some n) : matchPlanAt s = some n := by
  unfold matchPlanAt
  rw [h]

lemma matchPlanAt_cons_other {c : Char} {s : List Char}
    (hd : lowc c ≠ 'd') (hp : lowc c ≠ 'p') : matchPlanAt (c :: s) = none := by
  have h1 : planBranchLong (c :: s) = none := by
    unfold planBranchLong
    rw [show ("district".data : List Char) = 'd' :: "istrict".data from rfl,
      matchLit_cons_ne hd]
    rfl
  have h2 : planBranchShort (c :: s) = none := by
    unfold planBranchShort
    rw [show ("plan".data : List Char) = 'p' :: "lan".data from rfl,
      matchLit_cons_ne hp]
    rfl
  unfold matchPlanAt
  rw [h1, h2]

lemma matchDistrictAt_cons_other {c : Char} {s : List Char}
    (hd : lowc c ≠ 'd') : matchDistrictAt (c :: s) = none := by
  unfold matchDistrictAt
  rw [show ("district".data : List Char) = 'd' :: "istrict".data from rfl,
    matchLit_cons_ne hd]
  rfl

lemma findPlan_cons_none {c : Char} {cs : List Char}
    (h : matchPlanAt (c :: cs) = none) : findPlan (c :: cs) = findPlan cs := by
  show (match matchPlanAt (c :: cs) with
        | some n => some n
        | none => findPlan cs) = findPlan cs
  rw [h]

lemma findPlan_pos {s : List Char} {n : Nat} (hne : s ≠ [])
    (h : matchPlanAt s = some n) : findPlan s = some n := by
  cases s with
  | nil => exact absurd rfl hne
  | cons c cs =>
    unfold findPlan
    rw [h]

lemma findDistricts_nil : findDistricts [] = [] := rfl

lemma findDistricts_cons_none {c : Char} {cs : List Char}
    (h : matchDistrictAt (c :: cs) = none) :
    findDistricts (c :: cs) = findDistricts cs := by
  show (match matchDistrictAt (c :: cs) with
        | some (n, rest) => n :: findDistrictsAux cs.length rest
        | none => findDistrictsAux cs.length cs)
      = findDistricts cs
  rw [h]
  rfl

lemma findDistricts_cons_some {c : Char} {cs : List Char} {n : Nat}
    {rest : List Char} (h : matchDistrictAt (c :: cs) = some (n, rest)) :
    findDistricts (c :: cs) = n :: findDistricts rest := by
  show (match matchDistrictAt (c :: cs) with
        | some (n, rest) => n :: findDistrictsAux cs.length rest
        | none => findDistrictsAux cs.length cs)
      = n :: findDistricts rest
  rw [h]
  have hlen := matchDistrictAt_length h
  simp only [List.length_cons] at hlen
  exact congrArg (List.cons n)
    (findDistrictsAux_fuel cs.length rest.length rest (by omega) (le_refl _))

lemma repSep_cons_of_not_v {c : Char} {s : List Char}
    (h : ∀ c2, s.head? = some c2 → lowc c2 ≠ 'v') : repSep (c :: s) = none := by
  show (if isSepChar c = true then repTail s else none) = none
  split
  · cases s with
    | nil => rfl
    | cons c2 s' =>
      show (if lowc c2 = 'v' then (digitsOf s').map (·.1) else none) = none
      rw [if_neg (h c2 rfl)]
  · rfl

lemma repScan_cons_none {c : Char} {cs : List Char}
    (h : repSep (c :: cs) = none) : repScan (c :: cs) = repScan cs := by
  show (match repSep (c :: cs) with
        | some n => some n
        | none => repScan cs) = repScan cs
  rw [h]

/-! ### Scanning across a region where a pattern cannot start -/

lemma findPlan_append_none {a b : List Char}
    (h : ∀ i, i < a.length → matchPlanAt (List.drop i a ++ b) = none) :
    findPlan (a ++ b) = findPlan b := by
  induction a with
  | nil => rfl
  | cons c a' ih =>
    have h0 : matchPlanAt ((c :: a') ++ b) = none := by
      simpa using h 0 (by simp)
    exact (findPlan_cons_none h0).trans
      (ih (fun i hi => h (i + 1) (by simp only [List.length_cons]; omega)))

lemma findDistricts_append_none {a b : List Char}
    (h : ∀ i, i < a.length → matchDistrictAt (List.drop i a ++ b) = none) :
    findDistricts (a ++ b) = findDistricts b := by
  induction a with
  | nil => rfl
  | cons c a' ih =>
    have h0 : matchDistrictAt ((c :: a') ++ b) = none := by
      simpa using h 0 (by simp)
    exact (findDistricts_cons_none h0).trans
      (ih (fun i hi => h (i + 1) (by simp only [List.length_cons]; omega)))

lemma repScan_append_none {a b : List Char}
    (h : ∀ i, i < a.length → repSep (List.drop i a ++ b) = none) :
    repScan (a ++ b) = repScan b := by
  induction a with
  | nil => rfl
  | cons c a' ih =>
    have h0 : repSep ((c :: a') ++ b) = none := by
      simpa using h 0 (by simp)
    exact (repScan_cons_none h0).trans
      (ih (fun i hi => h (i + 1) (by simp only [List.length_cons]; omega)))

lemma findDistricts_skip {a b : List Char} (h : ∀ c ∈ a, lowc c ≠ 'd') :
    findDistricts (a ++ b) = findDistricts b := by
  induction a with
  | nil => rfl
  | cons c a' ih =>
    exact (findDistricts_cons_none
      (matchDistrictAt_cons_other (h c (by simp)))).trans
      (ih (fun x hx => h x (by simp [hx])))

lemma findDistricts_nil_of_no_d {s : List Char} (h : ∀ c ∈ s, lowc c ≠ 'd') :
    findDistricts s = [] := by
  calc findDistricts s = findDistricts (s ++ []) := by rw [List.append_nil]
    _ = findDistricts [] := findDistricts_skip h
    _ = [] := findDistricts_nil

lemma repScan_skip {a b : List Char} (ha : ∀ c ∈ a, lowc c ≠ 'v')
    (hb : ∀ c, b.head? = some c → lowc c ≠ 'v') :
    repScan (a ++ b) = repScan b := by
  induction a with
  | nil => rfl
  | cons c a' ih =>
    have hsep : repSep (c :: (a' ++ b)) = none := by
      apply repSep_cons_of_not_v
      intro c2 hc2
      cases a' with
      | nil => exact hb c2 hc2
      | cons c3 a'' =>
        rw [List.cons_append, List.head?_cons, Option.some.injEq] at hc2
        rw [← hc2]
        exact ha c3 (by simp)
    exact (repScan_cons_none hsep).trans (ih (fun x hx => ha x (by simp [hx])))

lemma repScan_none {s : List Char} (h : ∀ c ∈ s, lowc c ≠ 'v') :
    repScan s = none := by
  induction s with
  | nil => rfl
  | cons c s' ih =>
    rw [repScan_cons_none (repSep_cons_of_not_v (fun c2 hc2 => by
      cases s' with
      | nil => simp at hc2
      | cons c3 s'' =>
        rw [List.head?_cons, Option.some.injEq] at hc2
        rw [← hc2]
        exact h c3 (by simp)))]
    exact ih (fun x hx => h x (by simp [hx]))

lemma findRep_eq_scan {s : List Char} (h : repAnchor s = none) :
    findRep s = repScan s := by
  unfold findRep
  rw [h]

/-! ### Evaluating the scanners on the identity block -/

lemma planBranchLong_block (p d : Nat) (t : List Char) :
    planBranchLong (plan_district_block p d t) = some p := by
  unfold planBranchLong plan_district_block
  rw [matchLit_exact (l := "district".data) (by decide)]
  simp only [Option.some_bind]
  rw [sepLit_cons_sep (by rfl)]
  rw [matchLit_exact (l := "plan".data) (by decide)]
  simp only [Option.some_bind]
  rw [sepDigits_cons_sep (by rfl)]
  rw [digitsOf_exact (pad3_ne_nil p) (pad3_isDig p)
    (head_isDig_false (by rfl) _)]
  simp [digitsVal_pad3]

lemma matchPlanAt_block (p d : Nat) (t : List Char) :
    matchPlanAt (plan_district_block p d t) = some p :=
  matchPlanAt_of_long (planBranchLong_block p d t)

lemma plan_district_block_ne_nil (p d : Nat) (t : List Char) :
    plan_district_block p d t ≠ [] := by
  unfold plan_district_block
  simp

lemma findPlan_block (p d : Nat) (t : List Char) :
    findPlan (plan_district_block p d t) = some p :=
  findPlan_pos (plan_district_block_ne_nil p d t) (matchPlanAt_block p d t)

lemma matchDistrictAt_block (p d : Nat) (t : List Char) :
    matchDistrictAt (plan_district_block p d t) = none := by
  unfold matchDistrictAt plan_district_block
  rw [matchLit_exact (l := "district".data) (by decide)]
  simp only [Option.some_bind]
  rw [sepDigits_cons_sep (by rfl)]
  exact digitsOf_none_of_head (head_isDig_false (by rfl) _)

lemma findDistricts_block (p d : Nat) {t : List Char}
    (ht : ∀ c, t.head? = some c → isDig c = false)
    (htd : ∀ c ∈ t, lowc c ≠ 'd') :
    findDistricts (plan_district_block p d t) = [d] := by
  have hleft : ∀ c ∈ ("istrict".data ++ '_' :: ("plan".data
      ++ '_' :: (pad3 p ++ ['_'])) : List Char), lowc c ≠ 'd' := by
    have l1 : ∀ c ∈ ("istrict".data : List Char), lowc c ≠ 'd' := by decide
    have l2 : ∀ c ∈ ("plan".data : List Char), lowc c ≠ 'd' := by decide
    have lsep : lowc '_' ≠ 'd' := by decide
    have l3 : ∀ c ∈ pad3 p, lowc c ≠ 'd' :=
      fun c hc => lowc_ne_of_isDig (pad3_isDig p c hc) (by decide)
    intro c hc
    rcases List.mem_append.1 hc with h | h
    · exact l1 c h
    · rcases List.mem_cons.1 h with h | h
      · rw [h]; exact lsep
      · rcases List.mem_append.1 h with h | h
        · exact l2 c h
        · rcases List.mem_cons.1 h with h | h
          · rw [h]; exact lsep
          · rcases List.mem_append.1 h with h | h
            · exact l3 c h
            · simp only [List.mem_singleton] at h
              rw [h]; exact lsep
  have e2 : ("istrict".data ++ '_' :: ("plan".data ++ '_' :: (pad3 p
        ++ '_' :: ("district".data ++ '_' :: (pad2 d ++ t)))) : List Char)
      = ("istrict".data ++ '_' :: ("plan".data ++ '_' :: (pad3 p ++ ['_'])))
        ++ ("district".data ++ '_' :: (pad2 d ++ t)) := by
    simp [List.append_assoc]
  have hm : matchDistrictAt ("district".data ++ '_' :: (pad2 d ++ t))
      = some (d, t) := by
    unfold matchDistrictAt
    rw [matchLit_exact (l := "district".data) (by decide)]
    simp only [Option.some_bind]
    rw [sepDigits_cons_sep (by rfl),
      digitsOf_exact (pad2_ne_nil d) (pad2_isDig d) ht, digitsVal_pad2]
  calc findDistricts (plan_district_block p d t)
      = findDistricts ("istrict".data ++ '_' :: ("plan".data
          ++ '_' :: (pad3 p ++ '_' :: ("district".data
          ++ '_' :: (pad2 d ++ t))))) :=
        findDistricts_cons_none (matchDistrictAt_block p d t)
    _ = findDistricts (("istrict".data ++ '_' :: ("plan".data
          ++ '_' :: (pad3 p ++ ['_'])))
          ++ ("district".data ++ '_' :: (pad2 d ++ t))) :=
        congrArg findDistricts e2
    _ = findDistricts ("district".data ++ '_' :: (pad2 d ++ t)) :=
        findDistricts_skip hleft
    _ = d :: findDistricts t := findDistricts_cons_some hm
    _ = [d] := by rw [findDistricts_nil_of_no_d htd]

lemma repScan_block (p d : Nat) (t : List Char)
    (ht0 : ∀ c, t.head? = some c → lowc c ≠ 'v') :
    repScan (plan_district_block p d t) = repScan t := by
  have hnov : ∀ c ∈ ("district".data ++ '_' :: ("plan".data
      ++ '_' :: (pad3 p ++ '_' :: ("district".data ++ '_' :: pad2 d)))
      : List Char), lowc c ≠ 'v' := by
    have l1 : ∀ c ∈ ("district".data : List Char), lowc c ≠ 'v' := by decide
    have l2 : ∀ c ∈ ("plan".data : List Char), lowc c ≠ 'v' := by decide
    have lsep : lowc '_' ≠ 'v' := by decide
    have l3 : ∀ c ∈ pad3 p, lowc c ≠ 'v' :=
      fun c hc => lowc_ne_of_isDig (pad3_isDig p c hc) (by decide)
    have l4 : ∀ c ∈ pad2 d, lowc c ≠ 'v' :=
      fun c hc => lowc_ne_of_isDig (pad2_isDig d c hc) (by decide)
    intro c hc
    rcases List.mem_append.1 hc with h | h
    · exact l1 c h
    · rcases List.mem_cons.1 h with h | h
      · rw [h]; exact lsep
      · rcases List.mem_append.1 h with h | h
        · exact l2 c h
        · rcases List.mem_cons.1 h with h | h
          · rw [h]; exact lsep
          · rcases List.mem_append.1 h with h | h
            · exact l3 c h
            · rcases List.mem_cons.1 h with h | h
              · rw [h]; exact lsep
              · rcases List.mem_append.1 h with h | h
                · exact l1 c h
                · rcases List.mem_cons.1 h with h | h
                  · rw [h]; exact lsep
                  · exact l4 c h
  have e2 : plan_district_block p d t
      = ("district".data ++ '_' :: ("plan".data ++ '_' :: (pad3 p
          ++ '_' :: ("district".data ++ '_' :: pad2 d)))) ++ t := by
    unfold plan_district_block
    simp [List.append_assoc]
  rw [e2]
  exact repScan_skip hnov ht0

lemma repScan_v_tail (rep : Nat) :
    repScan ('_' :: 'v' :: (natDigits rep ++ ".csv".data)) = some rep := by
  have hs : repSep ('_' :: 'v' :: (natDigits rep ++ ".csv".data))
      = some rep := by
    show (if isSepChar '_' = true
          then repTail ('v' :: (natDigits rep ++ ".csv".data)) else none)
        = some rep
    rw [if_pos (show isSepChar '_' = true from rfl)]
    show (if lowc 'v' = 'v'
          then (digitsOf (natDigits rep ++ ".csv".data)).map (·.1) else none)
        = some rep
    rw [if_pos (show lowc 'v' = 'v' from by decide)]
    rw [digitsOf_exact (natDigits_ne_nil rep) (natDigits_isDig rep)
      (head_isDig_false (by rfl) _)]
    simp [digitsVal_natDigits]
  show (match repSep ('_' :: 'v' :: (natDigits rep ++ ".csv".data)) with
        | some n => some n
        | none => repScan ('v' :: (natDigits rep ++ ".csv".data)))
      = some rep
  rw [hs]

/-! ### The round-trip theorem -/

/-- A prefix region is *safe* when no plan, district, or rep token match
can start inside it (matches may look arbitrarily far to the right, so the
conditions mention the full string), and the rep pattern's `^`-anchored
branch fails.  These are exactly the conditions under which the decoder
cannot be confused by the run name, the mode name, or the directory
layout; they are decidable and hold for the names the pipeline uses. -/
def PrefixSafe (a b : List Char) : Prop :=
  (∀ i, i < a.length → matchPlanAt (List.drop i a ++ b) = none) ∧
  (∀ i, i < a.length → matchDistrictAt (List.drop i a ++ b) = none) ∧
  (∀ i, i < a.length → repSep (List.drop i a ++ b) = none) ∧
  repAnchor (a ++ b) = none

instance (a b : List Char) : Decidable (PrefixSafe a b) := by
  unfold PrefixSafe
  infer_instance

/-- C1: Naming round-trip.  For every settings-artifact path written by the
settings generator (`<run>_<dnum>_sample_settings_district_plan_<plan:03d>_district_<district:02d>.json`
under its settings folder) and every profile-artifact path written by the
profile generator (the settings stem with `sample_settings` replaced by
`profile`, suffix `_v<rep>.csv`), `parse_plan_district_rep_from_path`
recovers exactly the plan index, district id and (for profiles) replicate
index used to construct the path; the district comes from the last
`district`+digits token, so the plan-level `district_plan` token is never
mistaken for it.  The `PrefixSafe` hypotheses say the surrounding
directory/run/mode names spawn no spurious token matches — without them a
run name such as `plan9` would be decoded as a plan index, so they are
exactly the applicability condition of the convention. -/
theorem c1_naming_roundtrip (root run mode : List Char)
    (dnum plan district rep : Nat)
    (hs : PrefixSafe (settings_path_front root run dnum)
      (plan_district_block plan district (".json".data)))
    (hp : PrefixSafe (profile_path_front root run mode dnum)
      (plan_district_block plan district
        ('_' :: 'v' :: (natDigits rep ++ ".csv".data)))) :
    parse_plan_district_rep_from_path
        (settings_path root run dnum plan district)
      = (some plan, some district, none) ∧
    parse_plan_district_rep_from_path
        (profile_path root run mode dnum plan district rep)
      = (some plan, some district, some rep) := by
  constructor
  · have hplan : findPlan (settings_path root run dnum plan district)
        = some plan := by
      rw [settings_path_eq, findPlan_append_none hs.1, findPlan_block]
    have hdist : (findDistricts
        (settings_path root run dnum plan district)).getLast?
        = some district := by
      rw [settings_path_eq, findDistricts_append_none hs.2.1,
        findDistricts_block plan district (head_isDig_false (by rfl) _)
          (by decide)]
      rfl
    have hrep : findRep (settings_path root run dnum plan district)
        = none := by
      rw [settings_path_eq, findRep_eq_scan hs.2.2.2,
        repScan_append_none hs.2.2.1,
        repScan_block plan district _ (head_lowc_ne (by decide) _),
        repScan_none (by decide)]
    unfold parse_plan_district_rep_from_path
    rw [hplan, hdist, hrep]
  · have htd : ∀ c ∈ ('_' :: 'v' :: (natDigits rep ++ ".csv".data)
        : List Char), lowc c ≠ 'd' := by
      intro c hc
      rcases List.mem_cons.1 hc with h | h
      · rw [h]; decide
      · rcases List.mem_cons.1 h with h | h
        · rw [h]; decide
        · rcases List.mem_append.1 h with h | h
          · exact lowc_ne_of_isDig (natDigits_isDig rep c h) (by decide)
          · exact (by decide :
              ∀ x ∈ (".csv".data : List Char), lowc x ≠ 'd') c h
    have hplan : findPlan (profile_path root run mode dnum plan district rep)
        = some plan := by
      rw [profile_path_eq, findPlan_append_none hp.1, findPlan_block]
    have hdist : (findDistricts
        (profile_path root run mode dnum plan district rep)).getLast?
        = some district := by
      rw [profile_path_eq, findDistricts_append_none hp.2.1,
        findDistricts_block plan district (head_isDig_false (by rfl) _) htd]
      rfl
    have hrep : findRep (profile_path root run mode dnum plan district rep)
        = some rep := by
      rw [profile_path_eq, findRep_eq_scan hp.2.2.2,
        repScan_append_none hp.2.2.1,
        repScan_block plan district _ (head_lowc_ne (by decide) _),
        repScan_v_tail]
    unfold parse_plan_district_rep_from_path
    rw [hplan, hdist, hrep]

/-- Witness for C1 at the concrete run of the repository
(`run_name = sample_vk`, mode `slate_pl`, 5 districts, plan 7,
district 3, replicate 2). -/
theorem c1_naming_roundtrip_witness :
    parse_plan_district_rep_from_path
        (settings_path [] ("sample_vk".data) 5 7 3)
      = (some 7, some 3, none) ∧
    parse_plan_district_rep_from_path
        (profile_path [] ("sample_vk".data) ("slate_pl".data) 5 7 3 2)
      = (some 7, some 3, some 2) :=
  c1_naming_roundtrip [] ("sample_vk".data) ("slate_pl".data) 5 7 3 2
    (by decide) (by decide)

/-! ## Sorting paths

Python's `sorted` on strings compares code points lexicographically.
`String ≤` from the library is not kernel-reducible, so the order is
embedded explicitly. -/

/-- Code-point lexicographic comparison, as Python compares strings. -/
def charListLe : List Char → List Char → Bool
  | [], _ => true
  | _ :: _, [] => false
  | a :: as, b :: bs =>
    if a.toNat < b.toNat then true
    else if b.toNat < a.toNat then false
    else charListLe as bs

def strLe (s1 s2 : String) : Prop := charListLe s1.data s2.data = true

instance : DecidableRel strLe := fun s1 s2 => by
  unfold strLe
  infer_instance

lemma charListLe_total : ∀ l1 l2 : List Char,
    charListLe l1 l2 = true ∨ charListLe l2 l1 = true := by
  intro l1
  induction l1 with
  | nil => intro l2; left; rfl
  | cons a as ih =>
    intro l2
    cases l2 with
    | nil => right; rfl
    | cons b bs =>
      show (if a.toNat < b.toNat then true
            else if b.toNat < a.toNat then false else charListLe as bs) = true
          ∨ (if b.toNat < a.toNat then true
            else if a.toNat < b.toNat then false else charListLe bs as) = true
      rcases Nat.lt_trichotomy a.toNat b.toNat with h | h | h
      · left; rw [if_pos h]
      · rw [if_neg (by omega), if_neg (by omega), if_neg (by omega),
          if_neg (by omega)]
        exact ih bs
      · right; rw [if_pos h]

lemma charListLe_trans : ∀ l1 l2 l3 : List Char,
    charListLe l1 l2 = true → charListLe l2 l3 = true →
      charListLe l1 l3 = true := by
  intro l1
  induction l1 with
  | nil => intro l2 l3 _ _; rfl
  | cons a as ih =>
    intro l2 l3 h12 h23
    cases l2 with
    | nil => exact absurd h12 (by simp [charListLe])
    | cons b bs =>
      cases l3 with
      | nil => exact absurd h23 (by simp [charListLe])
      | cons c cs =>
        revert h12 h23
        show (if a.toNat < b.toNat then true
              else if b.toNat < a.toNat then false
              else charListLe as bs) = true →
            (if b.toNat < c.toNat then true
              else if c.toNat < b.toNat then false
              else charListLe bs cs) = true →
            (if a.toNat < c.toNat then true
              else if c.toNat < a.toNat then false
              else charListLe as cs) = true
        intro h12 h23
        by_cases hab : a.toNat < b.toNat
        · by_cases hbc : b.toNat < c.toNat
          · rw [if_pos (by omega)]
          · rw [if_neg hbc] at h23
            by_cases hcb : c.toNat < b.toNat
            · rw [if_pos hcb] at h23; exact absurd h23 (by simp)
            · rw [if_pos (by omega)]
        · rw [if_neg hab] at h12
          by_cases hba : b.toNat < a.toNat
          · rw [if_pos hba] at h12; exact absurd h12 (by simp)
          · rw [if_neg hba] at h12
            by_cases hbc : b.toNat < c.toNat
            · rw [if_pos (by omega)]
            · rw [if_neg hbc] at h23
              by_cases hcb : c.toNat < b.toNat
              · rw [if_pos hcb] at h23; exact absurd h23 (by simp)
              · rw [if_neg hcb] at h23
                rw [if_neg (by omega), if_neg (by omega)]
                exact ih bs cs h12 h23

lemma charListLe_antisymm : ∀ l1 l2 : List Char,
    charListLe l1 l2 = true → charListLe l2 l1 = true → l1 = l2 := by
  intro l1
  induction l1 with
  | nil =>
    intro l2 _ h21
    cases l2 with
    | nil => rfl
    | cons b bs => exact absurd h21 (by simp [charListLe])
  | cons a as ih =>
    intro l2 h12 h21
    cases l2 with
    | nil => exact absurd h12 (by simp [charListLe])
    | cons b bs =>
      revert h12 h21
      show (if a.toNat < b.toNat then true
            else if b.toNat < a.toNat then false
            else charListLe as bs) = true →
          (if b.toNat < a.toNat then true
            else if a.toNat < b.toNat then false
            else charListLe bs as) = true →
          a :: as = b :: bs
      intro h12 h21
      by_cases hab : a.toNat < b.toNat
      · rw [if_neg (by omega), if_pos hab] at h21
        exact absurd h21 (by simp)
      · rw [if_neg hab] at h12
        by_cases hba : b.toNat < a.toNat
        · rw [if_pos hba] at h12; exact absurd h12 (by simp)
        · rw [if_neg hba] at h12
          rw [if_neg hba, if_neg hab] at h21
          have hc : a = b := by
            have hn : a.toNat = b.toNat := by omega
            exact Char.eq_of_val_eq (UInt32.toNat.inj hn)
          rw [hc, ih bs h12 h21]

instance : IsTotal String strLe := ⟨fun a b => charListLe_total a.data b.data⟩

instance : IsTrans String strLe :=
  ⟨fun a b c => charListLe_trans a.data b.data c.data⟩

instance : IsAntisymm String strLe :=
  ⟨fun a b h1 h2 => by
    cases a with
    | mk d1 =>
      cases b with
      | mk d2 =>
        have := charListLe_antisymm d1 d2 h1 h2
        rw [this]⟩

/-- `sorted(...)` on a list of path strings. -/
def sortStrings (l : List String) : List String :=
  List.insertionSort strLe l

/-! ## `fnmatch`-style globbing used by `find_settings_file`

The fallback patterns use only `*` and literal characters; `*` matches any
character sequence.  Fuelled for kernel computability (each recursive call
shrinks `pattern.length + s.length` by at least one). -/

def globMatchAux : Nat → List Char → List Char → Bool
  | 0, _, _ => false
  | _ + 1, [], [] => true
  | _ + 1, [], _ :: _ => false
  | fuel + 1, p :: ps, s =>
    if p = '*' then
      globMatchAux fuel ps s
        || (match s with
            | [] => false
            | _ :: s' => globMatchAux fuel (p :: ps) s')
    else match s with
      | [] => false
      | c :: s' => p = c && globMatchAux fuel ps s'

def globMatch (pat s : List Char) : Bool :=
  globMatchAux (pat.length + s.length + 1) pat s

/-- `String.mk` of `pad3`/`pad2`/`natDigits`, for building the glob
patterns and the exact settings filename. -/
def pad3s (n : Nat) : String := ⟨pad3 n⟩

def pad2s (n : Nat) : String := ⟨pad2 n⟩

def natStr (n : Nat) : String := ⟨natDigits n⟩

/-- The ordered glob-pattern list of `find_settings_file` (step 2),
exactly as built from the optional plan and district. -/
def settings_glob_patterns : Option Nat → Option Nat → List String
  | some p, some d =>
    [ "*district_plan_" ++ pad3s p ++ "*district_" ++ pad2s d ++ ".json",
      "*plan_" ++ pad3s p ++ "*district_" ++ pad2s d ++ ".json",
      "*plan*" ++ natStr p ++ "*district*" ++ pad2s d ++ "*.json",
      "*plan*" ++ natStr p ++ "*district*" ++ natStr d ++ "*.json" ]
  | some p, none =>
    [ "*district_plan_" ++ pad3s p ++ "*.json",
      "*plan_" ++ pad3s p ++ "*.json",
      "*plan*" ++ natStr p ++ "*.json" ]
  | none, some d =>
    [ "*district_" ++ pad2s d ++ ".json",
      "*district*" ++ pad2s d ++ "*.json" ]
  | none, none => []

/-- `sorted(settings_dir.glob(pat))` then `hits[0]` over the pattern list,
first non-empty hit list wins. -/
def first_glob_hit (files : List String) : List String → Option String
  | [] => none
  | pat :: rest =>
    match sortStrings (files.filter (fun f => globMatch pat.data f.data)) with
    | [] => first_glob_hit files rest
    | f :: _ => some f

/-- `helpers.find_settings_file`.  The directory is `none` when it does not
exist, otherwise the list of entry names it contains.  Note the exact-match
filename (step 1) hardcodes the `sample_vk` run name, exactly as the
source does. -/
def find_settings_file (dir : Option (List String))
    (plan district : Option Nat) : Option String :=
  match dir with
  | none => none
  | some files =>
    let exact : Option String :=
      match plan, district with
      | some p, some d =>
        let name := "sample_vk_sample_settings_district_plan_" ++ pad3s p
          ++ "_district_" ++ pad2s d ++ ".json"
        if name ∈ files then some name else none
      | _, _ => none
    match exact with
    | some f => some f
    | none =>
      match first_glob_hit files (settings_glob_patterns plan district) with
      | some f => some f
      | none =>
        match sortStrings (files.filter
            (fun f => globMatch ("*.json".data) f.data)) with
        | [f] => some f
        | _ => none

/-! ## Focal-seat counting and summary rows (`summarize_results.py`) -/

/-- `helpers.is_focal_candidate`: candidate is focal if listed on the
focal slate, or, for a single-letter focal group, if its name starts with
that letter. -/
def is_focal_candidate (candidate focal_group : String)
    (slate_to_candidates : List (String × List String)) : Bool :=
  let focal_list := ((slate_to_candidates.lookup focal_group).getD [])
  candidate ∈ focal_list
    || (focal_group.data.length = 1
        && candidate.data.take focal_group.data.length = focal_group.data)

/-- `helpers.count_focal_winners`. -/
def count_focal_winners (winners : List String) (focal_group : String)
    (slate_to_candidates : List (String × List String)) : Nat :=
  (winners.filter
    (fun w => is_focal_candidate w focal_group slate_to_candidates)).length

/-- One per-simulation summary row, projected onto the fields the
identity/join logic manipulates (plan, district, rep from the decoded
profile path; the joined settings file; the focal-seat count). -/
structure SummaryRow where
  run_name : String
  plan : Option Nat
  district_id : Option Nat
  rep : Option Nat
  simulation_index : Nat
  focal_seats : Nat
  settings_file : Option String
deriving DecidableEq

instance : Inhabited SummaryRow :=
  ⟨⟨"", none, none, none, 0, 0, none⟩⟩

/-- The per-simulation row loop of `summarize_results` (lines 91-119) for
one winner-set artifact: `for idx, winners in enumerate(winners_all)`,
decode `profile_files[idx]`, look up the settings file, count focal
winners, and append a row — unconditionally.  Python raises `IndexError`
(embedded: `none`) only when `winners_all` outruns `profile_files`. -/
def build_summary_rows (run_name focal_group : String)
    (slate_to_candidates : List (String × List String))
    (settings_dir : Option (List String))
    (profile_files : List String) (winners_all : List (List String)) :
    Option (List SummaryRow) :=
  if winners_all.length ≤ profile_files.length then
    some ((winners_all.enum).map (fun iw =>
      let pf := profile_files.getD iw.1 ""
      let pdr := parse_plan_district_rep_from_path pf.data
      { run_name := run_name
        plan := pdr.1
        district_id := pdr.2.1
        rep := pdr.2.2
        simulation_index := iw.1
        focal_seats := count_focal_winners iw.2 focal_group
          slate_to_candidates
        settings_file := find_settings_file settings_dir pdr.1 pdr.2.1 }))
  else none

/-! ## The election fan-out driver (`simulate_elections.py`) -/

/-- The winner-set artifact JSON written per (district-count, winners,
voter mode). -/
structure WinnerSetArtifact where
  run_name : String
  voter_mode : String
  district_num : Nat
  winners_per_district : Nat
  profile_files : List String
  winners : List (List String)

/-- `simulate_elections` for one configuration: tabulate every collected
profile file in order (`winners_list = Parallel(...)(delayed(process_profile)(pf, dc.winners) for pf in all_profile_files)`
preserves input order) and record both lists side by side.  `tabulate`
stands for the external `process_profile` (CSV load + STV/plurality). -/
def simulate_elections_artifact (tabulate : String → Nat → List String)
    (run_name mode : String) (dnum wpd : Nat)
    (all_profile_files : List String) : WinnerSetArtifact :=
  { run_name := run_name
    voter_mode := mode
    district_num := dnum
    winners_per_district := wpd
    profile_files := all_profile_files
    winners := all_profile_files.map (fun pf => tabulate pf wpd) }

/-- `simulate_elections.py` line 117: `all_profile_files = glob(...)` —
the recorded list is the raw directory enumeration, in whatever order the
operating system returns it (no sort). -/
def collect_profile_files_current (glob_listing : List String) :
    List String :=
  glob_listing

/-- `04_simulate_elections.py`: `sorted(glob(...))` per root, then
`sorted(set(...))` — for the single profile root the deployed
`_find_profile_dirs` returns, a sort of the deduplicated listing. -/
def collect_profile_files_04 (glob_listing : List String) : List String :=
  sortStrings (sortStrings glob_listing).dedup

/-! ## The district-configuration fan-out (`C10`) -/

/-- `helpers.DistrictConfig`. -/
structure DistrictConfig where
  num_districts : Nat
  winners : Nat
deriving DecidableEq

/-- `settings_generator.py` line 39: the loop target is
`[config['district_configs'][0]['num_districts']]` — only the first
configuration's district count; `none` embeds the `IndexError` on an
empty list. -/
def settings_district_nums (configs : List DistrictConfig) :
    Option (List Nat) :=
  match configs with
  | [] => none
  | c :: _ => some [c.num_districts]

/-- `profile_generator.py` line 52: identical first-entry-only loop
target. -/
def profile_district_nums (configs : List DistrictConfig) :
    Option (List Nat) :=
  match configs with
  | [] => none
  | c :: _ => some [c.num_districts]

/-- `simulate_elections.py` lines 116-117: `for dc in district_configs`
— every configured district count is processed. -/
def election_district_nums (configs : List DistrictConfig) : List Nat :=
  configs.map (fun dc => dc.num_districts)

/-- `summarize_results.py` line 67: `for dc in district_configs`. -/
def summary_district_nums (configs : List DistrictConfig) : List Nat :=
  configs.map (fun dc => dc.num_districts)

/-! ## The turnout adjustment (`settings_generator.py` line 72) -/

/-- `adjusted_prop = prop*turnout[focal] / (prop*turnout[focal] +
(1-prop)*turnout[other])` — a bare float division; Python raises
`ZeroDivisionError` when the denominator is zero, embedded as `none`. -/
def adjusted_prop (p t_focal t_other : ℚ) : Option ℚ :=
  if p * t_focal + (1 - p) * t_other = 0 then none
  else some (p * t_focal / (p * t_focal + (1 - p) * t_other))

/-! ## The subsampler (`settings_generator.py` lines 27-29 and 55-62) -/

/-- `subsample_interval = chain_length // num_subsamples` (Python floor
division); `ZeroDivisionError` when `num_subsamples == 0`. -/
def subsample_interval (chain_length num_subsamples : Int) :
    Except String Int :=
  if num_subsamples = 0 then .error "ZeroDivisionError"
  else .ok (Int.fdiv chain_length num_subsamples)

/-- The trace loop: `if sample_idx % subsample_interval != 0: continue`.
Python's `%` on ints is `Int.fmod`; with a zero interval the very first
iteration raises `ZeroDivisionError`, so a non-empty trace faults and an
empty one silently yields nothing. -/
def subsample_select {α : Type} (interval : Int) (trace : List α) :
    Except String (List α) :=
  if interval = 0 ∧ trace.isEmpty = false then .error "ZeroDivisionError"
  else .ok (((trace.enum).filter
    (fun p => Int.fmod (p.1 : Int) interval = 0)).map Prod.snd)

/-- The two stages composed, as `generate_settings` executes them. -/
def generate_settings_subsample {α : Type} (chain_length num_subsamples : Int)
    (trace : List α) : Except String (List α) :=
  match subsample_interval chain_length num_subsamples with
  | .error e => .error e
  | .ok k => subsample_select k trace

/-! ## Bloc handling (`settings_generator.py` line 35,
`summarize_results.py` lines 42-44) -/

/-- `other_group = next(iter(turnout.keys() - {focal_group}))`: no
arity check; `StopIteration` (embedded as an error) only when every key
equals the focal group.  Set-iteration order is modelled as key order. -/
def settings_other_group (turnout_keys : List String) (focal : String) :
    Except String String :=
  match turnout_keys.filter (fun k => k ≠ focal) with
  | [] => .error "StopIteration"
  | k :: _ => .ok k

/-- `summarize_results`: `if len(turnout) != 2: raise ValueError(...)`. -/
def summarize_two_bloc_check (turnout_keys : List String) :
    Except String Unit :=
  if turnout_keys.length ≠ 2 then
    .error "ValueError: Turnout does not have exactly two keys"
  else .ok ()

/-! ## The settings-artifact fields (`settings_generator.py` lines 31-32,
69-76) -/

/-- Line 31 verbatim: the first entry is a single string
`num_voters, slate_to_candidates` (a quoting slip), not two entries. -/
def district_params : List String :=
  ["num_voters, slate_to_candidates", "cohesion_parameters", "alphas"]

/-- The keys of the written settings JSON:
`{k: config[k] for k in config if k in district_params}` then the three
assignments `bloc_proportions`, `total_ivap`, `total_vap`. -/
def settings_artifact_keys (config_keys : List String) : List String :=
  (config_keys.filter (fun k => k ∈ district_params))
    ++ ["bloc_proportions", "total_ivap", "total_vap"]

/-- Line 75 verbatim ends `row[config['pop_of_interest_column']],` — the
trailing comma makes the stored value a one-element tuple (a JSON array),
not the number. -/
def total_ivap_value (ivap_sum : ℚ) : List ℚ := [ivap_sum]

/-- The key set of the sample run configuration (`configs/sample.json`
schema as read by the five stages). -/
def sample_config_keys : List String :=
  ["run_name", "geodata_path", "pop_of_interest_column",
   "population_column", "chain_length", "num_subsamples", "num_voters",
   "slate_to_candidates", "cohesion_parameters", "alphas", "turnout",
   "focal_group", "district_configs", "num_reps", "total_seats"]

/-! ## C4: the turnout adjustment -/

/-- C4 as stated is false on the code: at `p = 0`, `t_focal = 1/2`,
`t_other = 0` the numerator `p*t_focal` and the denominator
`p*t_focal + (1-p)*t_other` both vanish and the bare division raises
`ZeroDivisionError` (embedded `none`), rather than being "defined as 0". -/
theorem c4_counterexample :
    (0 : ℚ) * (1 / 2) = 0 ∧
    (0 : ℚ) * (1 / 2) + (1 - 0) * 0 = 0 ∧
    adjusted_prop 0 (1 / 2) 0 = none ∧
    adjusted_prop 0 (1 / 2) 0 ≠ some 0 := by
  refine ⟨by norm_num, by norm_num, ?_, ?_⟩
  · unfold adjusted_prop
    rw [if_pos (by norm_num)]
  · unfold adjusted_prop
    rw [if_pos (by norm_num)]
    simp

/-- C4 (amended): for `p ∈ [0,1]` and turnout rates in `(0,1]` the
adjusted proportion is defined, lies in `[0,1]`, is 0 at `p=0` and 1 at
`p=1`; but in the edge case where numerator and denominator both vanish
the code raises a `ZeroDivisionError` (embedded `none`) instead of
defining the result as 0. -/
theorem c4_turnout_adjustment_amended :
    (∀ p tf tn : ℚ, 0 ≤ p → p ≤ 1 → 0 < tf → tf ≤ 1 → 0 < tn → tn ≤ 1 →
      ∃ q, adjusted_prop p tf tn = some q ∧ 0 ≤ q ∧ q ≤ 1 ∧
        (p = 0 → q = 0) ∧ (p = 1 → q = 1)) ∧
    (∀ p tf tn : ℚ, p * tf = 0 → p * tf + (1 - p) * tn = 0 →
      adjusted_prop p tf tn = none) := by
  constructor
  · intro p tf tn hp0 hp1 htf0 _htf1 htn0 _htn1
    have hden : 0 < p * tf + (1 - p) * tn := by
      rcases eq_or_lt_of_le hp0 with hp | hp
      · rw [← hp]
        simpa using htn0
      · have h1 : 0 < p * tf := mul_pos hp htf0
        have h2 : 0 ≤ (1 - p) * tn :=
          mul_nonneg (by linarith) (le_of_lt htn0)
        linarith
    refine ⟨p * tf / (p * tf + (1 - p) * tn), ?_, ?_, ?_, ?_, ?_⟩
    · unfold adjusted_prop
      rw [if_neg (ne_of_gt hden)]
    · exact div_nonneg (mul_nonneg hp0 (le_of_lt htf0)) (le_of_lt hden)
    · rw [div_le_one hden]
      have h2 : 0 ≤ (1 - p) * tn :=
        mul_nonneg (by linarith) (le_of_lt htn0)
      linarith
    · intro hp
      rw [hp]
      simp
    · intro hp
      rw [hp]
      have : (1 : ℚ) * tf + (1 - 1) * tn = tf := by ring
      rw [this]
      simp [div_self (ne_of_gt htf0)]
  · intro p tf tn _hnum hden
    unfold adjusted_prop
    rw [if_pos hden]

/-- Witness for C4 (amended): the invariant at `p = 1/2`, `t = 1`, and
the fault at the vanishing point. -/
theorem c4_turnout_adjustment_witness :
    (∃ q, adjusted_prop (1 / 2) 1 1 = some q ∧ 0 ≤ q ∧ q ≤ 1 ∧
      ((1 / 2 : ℚ) = 0 → q = 0) ∧ ((1 / 2 : ℚ) = 1 → q = 1)) ∧
    adjusted_prop 0 (1 / 2) 0 = none :=
  ⟨c4_turnout_adjustment_amended.1 (1 / 2) 1 1 (by norm_num) (by norm_num)
      (by norm_num) (by norm_num) (by norm_num) (by norm_num),
    c4_turnout_adjustment_amended.2 0 (1 / 2) 0 (by norm_num) (by norm_num)⟩

/-! ## C5: the subsample stride -/

/-- C5: with a positive stride `k = chain_length // num_subsamples`, the
subsampler selects exactly the trace entries whose zero-based position is
a multiple of `k` — deterministic stride selection.  (`Int.fmod` is
Python's `%`; for a positive modulus its vanishing is divisibility.) -/
theorem c5_subsample_stride {α : Type} (k : Int) (trace : List α)
    (hk : 1 ≤ k) :
    subsample_select k trace
      = .ok (((trace.enum).filter
          (fun p => decide (k ∣ (p.1 : Int)))).map Prod.snd) := by
  unfold subsample_select
  rw [if_neg (by rintro ⟨h0, _⟩; omega)]
  congr 1
  apply congrArg
  apply List.filter_congr
  intro p _
  have : Int.fmod (p.1 : Int) k = 0 ↔ k ∣ (p.1 : Int) := by
    rw [Int.fmod_eq_emod _ (by omega)]
    exact ⟨fun hh => Int.dvd_iff_emod_eq_zero.2 hh,
      fun hh => Int.dvd_iff_emod_eq_zero.1 hh⟩
  simp only [decide_eq_decide]
  exact this

set_option maxRecDepth 100000 in
/-- Witness for C5 at the spec's concrete case: `chain_length = 1000`,
`num_subsamples = 5` gives stride 200 and selects exactly positions
`{0, 200, 400, 600, 800}`. -/
theorem c5_subsample_stride_witness :
    subsample_interval 1000 5 = .ok 200 ∧
    subsample_select (200 : Int) (List.range 1000)
      = .ok [0, 200, 400, 600, 800] :=
  ⟨rfl,
    (c5_subsample_stride 200 (List.range 1000) (by decide)).trans (by rfl)⟩

/-! ## C6: subsampler failure behaviour -/

/-- C6 as stated is false on the code: with `chain_length = 4` and
`num_subsamples = 8` (subsample count exceeding chain length) the stride
computes to zero and the first loop iteration raises `ZeroDivisionError` —
there is no configuration-error check and no explicit select-all branch. -/
theorem c6_counterexample :
    generate_settings_subsample 4 8 [10, 20, 30, 40]
      = .error "ZeroDivisionError" ∧
    generate_settings_subsample 4 8 [10, 20, 30, 40]
      ≠ .ok [10, 20, 30, 40] := by
  constructor
  · rfl
  · intro h
    exact Except.noConfusion ((rfl :
      generate_settings_subsample 4 8 ([10, 20, 30, 40] : List Nat)
        = .error "ZeroDivisionError").symm.trans h)

/-- C6 (amended): the subsampler performs no validation.
`num_subsamples = 0` raises `ZeroDivisionError` at the stride computation;
`0 < chain_length < num_subsamples` gives stride 0 and raises
`ZeroDivisionError` at the first modulo of a non-empty trace; no
configuration error is raised and no select-all branch exists. -/
theorem c6_subsample_no_validation {α : Type} (cl ns : Int)
    (trace : List α) (hcl : 0 ≤ cl) :
    (ns = 0 →
      generate_settings_subsample cl ns trace = .error "ZeroDivisionError") ∧
    (0 < ns → cl < ns → trace ≠ [] →
      generate_settings_subsample cl ns trace
        = .error "ZeroDivisionError") := by
  constructor
  · intro h0
    have hz : subsample_interval cl ns = .error "ZeroDivisionError" := by
      unfold subsample_interval
      rw [if_pos h0]
    unfold generate_settings_subsample
    rw [hz]
  · intro hns hlt hne
    have hz : subsample_interval cl ns = .ok 0 := by
      unfold subsample_interval
      rw [if_neg (by omega), Int.fdiv_eq_ediv _ (by omega),
        Int.ediv_eq_zero_of_lt hcl hlt]
    unfold generate_settings_subsample
    rw [hz]
    show subsample_select 0 trace = .error "ZeroDivisionError"
    unfold subsample_select
    have hemp : trace.isEmpty = false := by
      cases trace with
      | nil => exact absurd rfl hne
      | cons a l => rfl
    rw [if_pos ⟨rfl, hemp⟩]

/-- Witness for C6 (amended) at `num_subsamples = 0` and at
`num_subsamples = 8 > chain_length = 4`. -/
theorem c6_subsample_no_validation_witness :
    generate_settings_subsample 4 0 [(1 : Nat)]
      = .error "ZeroDivisionError" ∧
    generate_settings_subsample 4 8 [(1 : Nat)]
      = .error "ZeroDivisionError" :=
  ⟨(c6_subsample_no_validation 4 0 [(1 : Nat)] (by decide)).1 rfl,
    (c6_subsample_no_validation 4 8 [(1 : Nat)] (by decide)).2 (by decide)
      (by decide) (by intro h; exact List.noConfusion h)⟩

/-! ## C7: the exactly-two-blocs precondition -/

/-- C7 as stated is false on the code: with a three-bloc turnout map
`{A, B, C}` and focal bloc `A`, the Bloc-Parameter Deriver
(`settings_generator`) raises no configuration error — it silently picks
a non-focal bloc and proceeds.  (The `len(turnout) != 2` check exists only
in `summarize_results`.) -/
theorem c7_counterexample :
    settings_other_group ["A", "B", "C"] "A" = .ok "B" ∧
    (∀ e, settings_other_group ["A", "B", "C"] "A" ≠ .error e) ∧
    (["A", "B", "C"] : List String).length ≠ 2 := by
  refine ⟨rfl, ?_, by decide⟩
  intro e h
  exact Except.noConfusion ((rfl : settings_other_group ["A", "B", "C"] "A"
    = .ok "B").symm.trans h)

/-- C7 (amended): the Bloc-Parameter Deriver performs no exactly-two
check — it fails (`StopIteration`) exactly when no non-focal bloc exists,
and otherwise proceeds with the first non-focal bloc; when the map has
exactly two distinct blocs including the focal one, that bloc is the
unique non-focal one.  The exactly-two configuration error lives in the
Aggregator (`summarize_results`), which accepts precisely two blocs. -/
theorem c7_two_bloc_check_amended :
    (∀ keys : List String, ∀ focal : String,
      (∃ e, settings_other_group keys focal = .error e)
        ↔ keys.filter (fun k => k ≠ focal) = []) ∧
    (∀ a b focal x : String, a ≠ b → focal = a →
      (settings_other_group [a, b] focal = .ok x ↔ x = b)) ∧
    (∀ keys : List String,
      summarize_two_bloc_check keys = .ok () ↔ keys.length = 2) := by
  refine ⟨?_, ?_, ?_⟩
  · intro keys focal
    unfold settings_other_group
    cases hf : keys.filter (fun k => k ≠ focal) with
    | nil => exact ⟨fun _ => rfl, fun _ => ⟨"StopIteration", rfl⟩⟩
    | cons k rest =>
      constructor
      · rintro ⟨e, he⟩
        exact absurd he (by simp)
      · intro h
        exact absurd h (by simp)
  · intro a b focal x hab hfa
    unfold settings_other_group
    have h1 : ([a, b].filter (fun k => k ≠ focal)) = [b] := by
      rw [hfa]
      simp [List.filter, hab.symm]
    rw [h1]
    constructor
    · intro h
      exact (by simpa using h : b = x).symm
    · intro h
      rw [h]
  · intro keys
    unfold summarize_two_bloc_check
    by_cases h : keys.length = 2
    · rw [if_neg (by omega)]
      exact ⟨fun _ => h, fun _ => rfl⟩
    · rw [if_pos h]
      exact ⟨fun hh => absurd hh (by simp), fun hh => absurd hh h⟩

/-- Witness for C7 (amended) on concrete bloc maps. -/
theorem c7_two_bloc_check_witness :
    ((∃ e, settings_other_group ["A"] "A" = .error e)
      ↔ (["A"] : List String).filter (fun k => k ≠ "A") = []) ∧
    (settings_other_group ["A", "B"] "A" = .ok "B" ↔ "B" = "B") ∧
    (summarize_two_bloc_check ["A", "B", "C"] = .ok ()
      ↔ (["A", "B", "C"] : List String).length = 2) :=
  ⟨c7_two_bloc_check_amended.1 ["A"] "A",
    c7_two_bloc_check_amended.2.1 "A" "B" "A" "B" (by decide) rfl,
    c7_two_bloc_check_amended.2.2 ["A", "B", "C"]⟩

/-! ## C8: the settings-artifact schema -/

/-- C8: the code contradicts the documented schema.  `district_params`
merges `num_voters` and `slate_to_candidates` into the single string
`num_voters, slate_to_candidates`, so neither key is copied from the run
configuration into the settings artifact; the written file carries only
`cohesion_parameters`, `alphas`, `bloc_proportions`, `total_ivap`,
`total_vap` — and `total_ivap` is a one-element tuple (JSON array), not
the summed number.  The profile generator reads
`settings['num_voters']` and `settings['slate_to_candidates']`, which
would fail on such a file. -/
theorem c8_settings_schema_bug :
    settings_artifact_keys sample_config_keys
      = ["cohesion_parameters", "alphas",
         "bloc_proportions", "total_ivap", "total_vap"] ∧
    "num_voters" ∈ sample_config_keys ∧
    "slate_to_candidates" ∈ sample_config_keys ∧
    "num_voters" ∉ settings_artifact_keys sample_config_keys ∧
    "slate_to_candidates" ∉ settings_artifact_keys sample_config_keys ∧
    total_ivap_value 8 = [8] := by
  refine ⟨by decide, by decide, by decide, by decide, by decide, rfl⟩

/-! ## C10: only the first district configuration is generated -/

/-- C10: when `district_configs` has more than one entry, the settings and
profile generators loop only over the first entry's district count, so a
later entry with a different count gets no settings and no profile
artifacts — while the election and summarization stages loop over every
configured count. -/
theorem c10_first_config_only (c : DistrictConfig)
    (rest : List DistrictConfig) :
    settings_district_nums (c :: rest) = some [c.num_districts] ∧
    profile_district_nums (c :: rest) = some [c.num_districts] ∧
    (∀ d ∈ rest, d.num_districts ≠ c.num_districts →
      (∀ ns, settings_district_nums (c :: rest) = some ns →
        d.num_districts ∉ ns) ∧
      (∀ ns, profile_district_nums (c :: rest) = some ns →
        d.num_districts ∉ ns) ∧
      d.num_districts ∈ election_district_nums (c :: rest) ∧
      d.num_districts ∈ summary_district_nums (c :: rest)) := by
  refine ⟨rfl, rfl, ?_⟩
  intro d hd hne
  refine ⟨?_, ?_, ?_, ?_⟩
  · intro ns hns
    have hh : ns = [c.num_districts] :=
      (by simpa [settings_district_nums] using hns :
        [c.num_districts] = ns).symm
    rw [hh]
    simpa using hne
  · intro ns hns
    have hh : ns = [c.num_districts] :=
      (by simpa [profile_district_nums] using hns :
        [c.num_districts] = ns).symm
    rw [hh]
    simpa using hne
  · unfold election_district_nums
    exact List.mem_map_of_mem _ (by simp [hd])
  · unfold summary_district_nums
    exact List.mem_map_of_mem _ (by simp [hd])

/-- Witness for C10 with configurations `[(5 districts, 1 winner),
(8 districts, 3 winners)]`. -/
theorem c10_first_config_only_witness :
    settings_district_nums [⟨5, 1⟩, ⟨8, 3⟩] = some [5] ∧
    profile_district_nums [⟨5, 1⟩, ⟨8, 3⟩] = some [5] ∧
    ((8 : Nat) ∉ [5]) ∧ (8 : Nat) ∈ election_district_nums [⟨5, 1⟩, ⟨8, 3⟩] := by
  have h := c10_first_config_only ⟨5, 1⟩ [⟨8, 3⟩]
  have h2 := h.2.2 ⟨8, 3⟩ (by simp) (by decide)
  exact ⟨h.1, h.2.1, h2.1 [5] h.1, h2.2.2.1⟩

/-! ## The summary-row loop: shared characterisation -/

/-- What the row loop produces: one row per winner list (never fewer),
whose identity fields are exactly the decode of the same-index profile
path and whose settings join uses that decoded identity. -/
lemma build_summary_rows_spec (run focal : String)
    (slate : List (String × List String)) (dir : Option (List String))
    (files : List String) (winners : List (List String))
    (rows : List SummaryRow)
    (hb : build_summary_rows run focal slate dir files winners = some rows) :
    rows.length = winners.length ∧
    ∀ i, i < rows.length →
      rows.getD i default =
        { run_name := run
          plan := (parse_plan_district_rep_from_path
            ((files.getD i "").data)).1
          district_id := (parse_plan_district_rep_from_path
            ((files.getD i "").data)).2.1
          rep := (parse_plan_district_rep_from_path
            ((files.getD i "").data)).2.2
          simulation_index := i
          focal_seats := count_focal_winners (winners.getD i []) focal slate
          settings_file := find_settings_file dir
            (parse_plan_district_rep_from_path ((files.getD i "").data)).1
            (parse_plan_district_rep_from_path
              ((files.getD i "").data)).2.1 } := by
  unfold build_summary_rows at hb
  by_cases hlen : winners.length ≤ files.length
  · rw [if_pos hlen] at hb
    have hrows := (Option.some.inj hb).symm
    subst hrows
    constructor
    · simp
    · intro i hi
      have hi2 : i < winners.enum.length := by simpa using hi
      have hi3 : i < winners.length := by simpa using hi
      rw [List.getD_eq_getElem _ _ (by simpa using hi), List.getElem_map,
        List.getElem_enum, List.getD_eq_getElem _ _ hi3]
  · rw [if_neg hlen] at hb
    exact absurd hb (by simp)

/-! ## C2: unknown identity handling -/

/-- C2 as stated is false on the code: for a profile filename that yields
no plan and no district index, the decoder does return explicit `none`s,
but the Aggregator does *not* drop the simulation's row — it appends a
row with unknown identity and an empty settings join (`summarize_results`
has no skip branch). -/
theorem c2_counterexample :
    parse_plan_district_rep_from_path ("junk.json".data)
      = (none, none, none) ∧
    build_summary_rows "sample_vk" "A" [("A", ["A1", "A2"])] (some [])
        ["junk.json"] [["A1"]]
      = some [⟨"sample_vk", none, none, none, 0, 1, none⟩] := by
  exact ⟨by decide, by decide⟩

/-- C2 (amended): the decoder returns explicit `none` for each missing
component, but every enumerated simulation yields a summary row — rows
with unknown identity are kept, carrying the decoded (possibly `none`)
components and whatever `find_settings_file` returns for them; moreover
when the settings directory holds exactly one `.json` file,
`find_settings_file` returns that file even with a fully unknown
identity (the silent mis-join fallback). -/
theorem c2_unknown_identity_amended :
    (∀ (run focal : String) (slate : List (String × List String))
        (dir : Option (List String)) (files : List String)
        (winners : List (List String)) (rows : List SummaryRow),
      build_summary_rows run focal slate dir files winners = some rows →
        rows.length = winners.length ∧
        (∀ i, i < rows.length →
          (rows.getD i default).plan
            = (parse_plan_district_rep_from_path
                ((files.getD i "").data)).1 ∧
          (rows.getD i default).district_id
            = (parse_plan_district_rep_from_path
                ((files.getD i "").data)).2.1 ∧
          (rows.getD i default).settings_file
            = find_settings_file dir
                (parse_plan_district_rep_from_path
                  ((files.getD i "").data)).1
                (parse_plan_district_rep_from_path
                  ((files.getD i "").data)).2.1)) ∧
    (∀ f : String, globMatch ("*.json".data) f.data = true →
      find_settings_file (some [f]) none none = some f) := by
  constructor
  · intro run focal slate dir files winners rows hb
    obtain ⟨hlen, hrow⟩ :=
      build_summary_rows_spec run focal slate dir files winners rows hb
    refine ⟨hlen, fun i hi => ?_⟩
    rw [hrow i hi]
    exact ⟨rfl, rfl, rfl⟩
  · intro f hf
    have h1 : [f].filter (fun x => globMatch ("*.json".data) x.data)
        = [f] := by
      simp [List.filter, hf]
    unfold find_settings_file
    show (match first_glob_hit [f] (settings_glob_patterns none none) with
          | some f' => some f'
          | none =>
            match sortStrings ([f].filter
                (fun x => globMatch ("*.json".data) x.data)) with
            | [f'] => some f'
            | _ => none) = some f
    rw [h1]
    rfl

/-- Witness for C2 (amended): a one-row build and the single-file
fallback, at concrete inputs. -/
theorem c2_unknown_identity_witness :
    ([(⟨"r", none, none, none, 0, 1, none⟩ : SummaryRow)]).length
      = [["A1"]].length ∧
    find_settings_file (some ["only.json"]) none none = some "only.json" :=
  ⟨(c2_unknown_identity_amended.1 "r" "A" [] none ["x.json"] [["A1"]]
      [⟨"r", none, none, none, 0, 1, none⟩] (by decide)).1,
    c2_unknown_identity_amended.2 "only.json" (by decide)⟩

/-! ## C3: winner-set index alignment -/

/-- C3: every winner-set artifact satisfies
`len(winners) == len(profile_files)` with `winners[i]` the tabulation of
`profile_files[i]`, and every summary row pairs `winners[i]` with the
identity decoded from `profile_files[i]` at the same index. -/
theorem c3_winner_index_alignment (tabulate : String → Nat → List String)
    (run mode focal : String) (slate : List (String × List String))
    (dir : Option (List String)) (dnum wpd : Nat) (files : List String) :
    (simulate_elections_artifact tabulate run mode dnum wpd
        files).winners.length
      = (simulate_elections_artifact tabulate run mode dnum wpd
        files).profile_files.length ∧
    (∀ i, i < files.length →
      (simulate_elections_artifact tabulate run mode dnum wpd
          files).winners.getD i []
        = tabulate (files.getD i "") wpd) ∧
    (∃ rows,
      build_summary_rows run focal slate dir
          (simulate_elections_artifact tabulate run mode dnum wpd
            files).profile_files
          (simulate_elections_artifact tabulate run mode dnum wpd
            files).winners
        = some rows ∧
      rows.length = (simulate_elections_artifact tabulate run mode dnum wpd
        files).winners.length ∧
      ∀ i, i < rows.length →
        (rows.getD i default).simulation_index = i ∧
        (rows.getD i default).focal_seats
          = count_focal_winners
              ((simulate_elections_artifact tabulate run mode dnum wpd
                files).winners.getD i []) focal slate ∧
        (rows.getD i default).plan
          = (parse_plan_district_rep_from_path
              ((files.getD i "").data)).1 ∧
        (rows.getD i default).district_id
          = (parse_plan_district_rep_from_path
              ((files.getD i "").data)).2.1 ∧
        (rows.getD i default).rep
          = (parse_plan_district_rep_from_path
              ((files.getD i "").data)).2.2) := by
  refine ⟨by simp [simulate_elections_artifact], ?_, ?_⟩
  · intro i hi
    show (files.map (fun pf => tabulate pf wpd)).getD i []
        = tabulate (files.getD i "") wpd
    rw [List.getD_eq_getElem _ _ (by simpa using hi), List.getElem_map,
      List.getD_eq_getElem _ _ hi]
  · have hb : build_summary_rows run focal slate dir files
        (files.map (fun pf => tabulate pf wpd))
        = some (((files.map (fun pf => tabulate pf wpd)).enum).map (fun iw =>
          { run_name := run
            plan := (parse_plan_district_rep_from_path
              ((files.getD iw.1 "").data)).1
            district_id := (parse_plan_district_rep_from_path
              ((files.getD iw.1 "").data)).2.1
            rep := (parse_plan_district_rep_from_path
              ((files.getD iw.1 "").data)).2.2
            simulation_index := iw.1
            focal_seats := count_focal_winners iw.2 focal slate
            settings_file := find_settings_file dir
              (parse_plan_district_rep_from_path
                ((files.getD iw.1 "").data)).1
              (parse_plan_district_rep_from_path
                ((files.getD iw.1 "").data)).2.1 })) := by
      unfold build_summary_rows
      rw [if_pos (by simp)]
    obtain ⟨hlen, hrow⟩ := build_summary_rows_spec run focal slate dir
      files (files.map (fun pf => tabulate pf wpd)) _ hb
    refine ⟨_, hb, hlen, fun i hi => ?_⟩
    rw [hrow i hi]
    exact ⟨rfl, rfl, rfl, rfl, rfl⟩

/-- Witness for C3 with a two-file listing and a constant tabulator. -/
theorem c3_winner_index_alignment_witness :
    (simulate_elections_artifact (fun _ n => List.replicate n "A1")
        "sample_vk" "slate_pl" 5 3 ["a.csv", "b.csv"]).winners.length
      = (simulate_elections_artifact (fun _ n => List.replicate n "A1")
        "sample_vk" "slate_pl" 5 3 ["a.csv", "b.csv"]).profile_files.length ∧
    (simulate_elections_artifact (fun _ n => List.replicate n "A1")
        "sample_vk" "slate_pl" 5 3 ["a.csv", "b.csv"]).winners.getD 1 []
      = (fun _ n => List.replicate n "A1")
          ((["a.csv", "b.csv"] : List String).getD 1 "") 3 :=
  ⟨(c3_winner_index_alignment (fun _ n => List.replicate n "A1")
      "sample_vk" "slate_pl" "A" [] none 5 3 ["a.csv", "b.csv"]).1,
    (c3_winner_index_alignment (fun _ n => List.replicate n "A1")
      "sample_vk" "slate_pl" "A" [] none 5 3 ["a.csv", "b.csv"]).2.1 1
      (by decide)⟩

/-! ## C9: profile-file collection order -/

/-- C9 as stated is false on the code: the deployed driver
(`simulate_elections.py`) records `glob`'s enumeration order verbatim,
so two collections over the same directory contents in different
enumeration orders produce different `profile_files` lists, and the
recorded list need not be lexicographically sorted. -/
theorem c9_counterexample :
    (["b.csv", "a.csv"] : List String).Perm ["a.csv", "b.csv"] ∧
    collect_profile_files_current ["b.csv", "a.csv"]
      ≠ collect_profile_files_current ["a.csv", "b.csv"] ∧
    collect_profile_files_current ["b.csv", "a.csv"]
      ≠ sortStrings ["b.csv", "a.csv"] := by
  exact ⟨by decide, by decide, by decide⟩

/-- C9 (amended): the deployed driver preserves the enumeration order
(no sort), so index alignment holds against whatever order was recorded
but the order is not a function of the directory contents; the older
draft (`04_simulate_elections.py`) sorts the deduplicated listing, and
that collection is deterministic — any two enumerations of the same
contents yield the same, lexicographically sorted list. -/
theorem c9_profile_order_amended :
    (∀ listing : List String,
      collect_profile_files_current listing = listing) ∧
    (∀ l1 l2 : List String, l1.Perm l2 →
      collect_profile_files_04 l1 = collect_profile_files_04 l2) ∧
    (∀ l : List String, (collect_profile_files_04 l).Sorted strLe) := by
  refine ⟨fun _ => rfl, ?_, ?_⟩
  · intro l1 l2 hperm
    unfold collect_profile_files_04 sortStrings
    refine List.eq_of_perm_of_sorted ?_ (List.sorted_insertionSort _ _)
      (List.sorted_insertionSort _ _)
    have hmid : (List.insertionSort strLe l1).dedup.Perm
        (List.insertionSort strLe l2).dedup :=
      ((List.perm_insertionSort strLe l1).trans
        (hperm.trans (List.perm_insertionSort strLe l2).symm)).dedup
    exact (List.perm_insertionSort strLe _).trans
      (hmid.trans (List.perm_insertionSort strLe _).symm)
  · intro l
    unfold collect_profile_files_04 sortStrings
    exact List.sorted_insertionSort _ _

/-- Witness for C9 (amended) on concrete listings. -/
theorem c9_profile_order_witness :
    collect_profile_files_current ["b.csv", "a.csv"] = ["b.csv", "a.csv"] ∧
    collect_profile_files_04 ["b.csv", "a.csv", "b.csv"]
      = collect_profile_files_04 ["a.csv", "b.csv", "b.csv"] ∧
    (collect_profile_files_04 ["b.csv", "a.csv"]).Sorted strLe :=
  ⟨c9_profile_order_amended.1 ["b.csv", "a.csv"],
    c9_profile_order_amended.2.1 ["b.csv", "a.csv", "b.csv"]
      ["a.csv", "b.csv", "b.csv"] (by decide),
    c9_profile_order_amended.2.2 ["b.csv", "a.csv"]⟩

end Redistricting
